import Mathlib

/-!
Verification of the PID step-size controller (`pid_controller.py`).

The controller operates on batched tensors.  We model a batch as a function
out of an index type `ι` and the data components of one batch element as a
function out of `δ`.  Data tensors are valued in `EReal` so that infinite
entries (IEEE `inf`) are representable; the error-ratio pipeline lives in
`ℝ≥0∞`, which matches IEEE arithmetic on non-negative values (`0 ** r = 0`
for `r > 0`, `inf ** r = inf` for `r > 0`, `inf ** (-r) = 0`, `x ** 0 = 1`);
times and step sizes are real numbers.
-/

open scoped ENNReal
open scoped Classical

namespace PIDVerif

/-- Status codes from `torchode.status_codes`: per-batch-element outcome of a
step-size adaptation. -/
inductive StatusCode where
  | SUCCESS
  | INFINITE_NORM
deriving DecidableEq

/-- Configuration of `PIDController.__init__`: tolerances, PID gains, the
norm reduction, optional hard step-size bounds, safety factor and growth
factor clamp bounds.  The norm appears twice, once on the non-negative
pipeline (`norm`) and once on signed data (`normR`); both model the single
`self.norm` of the source at the two scalar abstractions used here. -/
structure PIDParams (δ : Type) where
  atol : ℝ
  rtol : ℝ
  pcoeff : ℝ
  icoeff : ℝ
  dcoeff : ℝ
  norm : (δ → ℝ≥0∞) → ℝ≥0∞
  normR : (δ → ℝ) → ℝ
  dt_min : Option ℝ
  dt_max : Option ℝ
  safety : ℝ
  factor_min : ℝ
  factor_max : ℝ

/-- Modelled from the spec: `PIDState` is imported from
`torchode.step_size_controllers` and is not part of the repository.  Per the
spec's data model it carries the stepping method's convergence order, the two
most recent accepted error ratios (per batch element), optional step-size
bounds resolved at initialization, and a small positive floor constant
`almost_zero`. -/
@[ext]
structure PIDState (ι : Type) where
  method_order : ℕ
  prev_error_ratio : ι → ℝ≥0∞
  prev_prev_error_ratio : ι → ℝ≥0∞
  dt_min : Option ℝ
  dt_max : Option ℝ
  almost_zero : ℝ≥0∞

/-- Modelled from the spec: `PIDState.update_error_ratios` (torchode) returns
a state with only the two history fields replaced; all other fields are
carried over unchanged. -/
def PIDState.update_error_ratios {ι : Type} (s : PIDState ι)
    (prev_error_ratio prev_prev_error_ratio : ι → ℝ≥0∞) : PIDState ι :=
  { s with
    prev_error_ratio := prev_error_ratio
    prev_prev_error_ratio := prev_prev_error_ratio }

/-- Modelled from the spec: `PIDState.default` (torchode) builds a fresh state
with both history slots set to the neutral ratio `1.0`; `almost_zero` is a
small positive floor constant whose value we keep as a parameter. -/
noncomputable def PIDState.default {ι : Type} (method_order : ℕ) (dt_min dt_max : Option ℝ)
    (almost_zero : ℝ≥0∞) : PIDState ι :=
  { method_order := method_order
    prev_error_ratio := fun _ => 1
    prev_prev_error_ratio := fun _ => 1
    dt_min := dt_min
    dt_max := dt_max
    almost_zero := almost_zero }

/-- Modelled from the spec: `rms_norm` (torchode) is the default norm
reduction, root-mean-square over the data components, here on the
non-negative pipeline. -/
noncomputable def rms_norm {δ : Type} [Fintype δ] (v : δ → ℝ≥0∞) : ℝ≥0∞ :=
  ((Finset.univ.sum fun k => v k ^ 2) / (Fintype.card δ : ℝ≥0∞)) ^ ((1 : ℝ) / 2)

/-- Modelled from the spec: `rms_norm` (torchode) on signed real data. -/
noncomputable def rms_normR {δ : Type} [Fintype δ] (v : δ → ℝ) : ℝ :=
  Real.sqrt ((Finset.univ.sum fun k => v k ^ 2) / (Fintype.card δ : ℝ))

/-- `PIDController.dt_factor`: growth factor of the timestep, the Söderlind
PID law with gains normalized by the convergence order, clamped to
`[factor_min, factor_max]` (`torch.clamp x lo hi = min (max x lo) hi`). -/
noncomputable def dt_factor {ι δ : Type} (cfg : PIDParams δ) (state : PIDState ι)
    (error_ratio : ι → ℝ≥0∞) : ι → ℝ≥0∞ :=
  fun i =>
    let order : ℝ := state.method_order
    let k_I : ℝ := cfg.icoeff / order
    let k_P : ℝ := cfg.pcoeff / order
    let k_D : ℝ := cfg.dcoeff / order
    let factor1 := error_ratio i ^ (-(k_I + k_P + k_D))
    let factor2 := state.prev_error_ratio i ^ (k_P + 2 * k_D)
    let factor3 := state.prev_prev_error_ratio i ^ (-k_D)
    let factor := ENNReal.ofReal cfg.safety * factor1 * factor2 * factor3
    min (max factor (ENNReal.ofReal cfg.factor_min)) (ENNReal.ofReal cfg.factor_max)

/-- `PIDController.initial_state`: delegates to `PIDState.default`. -/
noncomputable def initial_state {ι : Type} (method_order : ℕ) (dt_min dt_max : Option ℝ)
    (almost_zero : ℝ≥0∞) : PIDState ι :=
  PIDState.default method_order dt_min dt_max almost_zero

/-- `PIDController.merge_states`: elementwise select of the history fields of
`current` (where `running` holds) against `previous` (where it does not),
through `current.update_error_ratios`. -/
def merge_states {ι : Type} (running : ι → Bool) (current previous : PIDState ι) :
    PIDState ι :=
  current.update_error_ratios
    (fun i =>
      if running i then current.prev_error_ratio i else previous.prev_error_ratio i)
    (fun i =>
      if running i then current.prev_prev_error_ratio i
      else previous.prev_prev_error_ratio i)

/-- `PIDController.update_state`.  The `y0`/`dt` arguments are only used by
the source to size the tensor of ones.  When no error ratio is given, the
history is refreshed with the neutral ratio `1.0`; otherwise the source
asserts that `accept` is present (modelled as `none`, the Python
`AssertionError`) and shifts the history elementwise where `accept` holds. -/
noncomputable def update_state {ι δ : Type} (state : PIDState ι) (y0 : ι → δ → EReal)
    (dt : ι → ℝ) (error_ratio : Option (ι → ℝ≥0∞)) (accept : Option (ι → Bool)) :
    Option (PIDState ι) :=
  match error_ratio with
  | none =>
      some (state.update_error_ratios (fun _ => 1) state.prev_error_ratio)
  | some er =>
      match accept with
      | none => none
      | some acc =>
          some (state.update_error_ratios
            (fun i => if acc i then er i else state.prev_error_ratio i)
            (fun i =>
              if acc i then state.prev_error_ratio i
              else state.prev_prev_error_ratio i))

/-- `StepResult` (torchode): the stepper's proposed state and an optional
error estimate. -/
structure StepResult (ι δ : Type) where
  y : ι → δ → EReal
  error_estimate : Option (ι → δ → EReal)

/-- Return value of `adapt_step_size`. -/
structure AdaptResult (ι : Type) where
  accept : ι → Bool
  dt_next : ι → ℝ
  state : PIDState ι
  status : Option (ι → StatusCode)

/-- The error bounds of `adapt_step_size`, line 188:
`torch.add(atol, maximum(|y0|, |y1|), alpha=rtol) = atol + rtol * max |y0| |y1|`. -/
noncomputable def error_bounds {ι δ : Type} (cfg : PIDParams δ)
    (y0 y1 : ι → δ → EReal) : ι → δ → ℝ≥0∞ :=
  fun i k =>
    ENNReal.ofReal cfg.atol + ENNReal.ofReal cfg.rtol * max (y0 i k).abs (y1 i k).abs

/-- The error ratio of `adapt_step_size`, line 192:
`max (norm (|error_estimate| / error_bounds)) almost_zero`. -/
noncomputable def error_ratio {ι δ : Type} (cfg : PIDParams δ) (state : PIDState ι)
    (y0 y1 : ι → δ → EReal) (error_estimate : ι → δ → EReal) : ι → ℝ≥0∞ :=
  fun i =>
    max (cfg.norm fun k => (error_estimate i k).abs / error_bounds cfg y0 y1 i k)
      state.almost_zero

/-- `torch.clamp` with optional bounds: the lower bound is applied first,
then the upper bound; an absent bound is skipped. -/
noncomputable def clamp_opt (x : ℝ) (lo hi : Option ℝ) : ℝ :=
  match hi with
  | none => (match lo with | none => x | some l => max x l)
  | some h => min (match lo with | none => x | some l => max x l) h

/-- `PIDController.adapt_step_size`.  With no error estimate the step is
accepted unconditionally with `dt` unchanged and no status; otherwise the
error ratio decides acceptance (`error_ratio < 1`, strict), the next step
size is `dt * dt_factor` (clamped into the optional `[dt_min, dt_max]` when
either bound is set), and the status is `SUCCESS` exactly where the error
ratio is finite.  The `Option.get` calls discharge the `assert` inside
`update_state`, which cannot fire at these call sites. -/
noncomputable def adapt_step_size {ι δ : Type} (cfg : PIDParams δ) (t0 : ι → ℝ)
    (dt : ι → ℝ) (y0 : ι → δ → EReal) (step_result : StepResult ι δ)
    (state : PIDState ι) : AdaptResult ι :=
  match step_result.error_estimate with
  | none =>
      { accept := fun _ => true
        dt_next := dt
        state := (update_state state y0 dt none none).get rfl
        status := none }
  | some ee =>
      let er := error_ratio cfg state y0 step_result.y ee
      let accept : ι → Bool := fun i => decide (er i < 1)
      let dt_next0 : ι → ℝ := fun i => dt i * (dt_factor cfg state er i).toReal
      let status : ι → StatusCode := fun i =>
        if er i < ⊤ then StatusCode.SUCCESS else StatusCode.INFINITE_NORM
      let dt_next : ι → ℝ :=
        if state.dt_min.isSome || state.dt_max.isSome then
          fun i => clamp_opt (dt_next0 i) state.dt_min state.dt_max
        else dt_next0
      { accept := accept
        dt_next := dt_next
        state := (update_state state y0 dt (some er) (some accept)).get rfl
        status := some status }

/-- The `inv_scale` of `_select_initial_step`, lines 248-249:
reciprocal of `atol + rtol * |y0|`. -/
noncomputable def sis_inv_scale {ι δ : Type} (cfg : PIDParams δ) (y0 : ι → δ → ℝ) :
    ι → δ → ℝ :=
  fun i k => (cfg.atol + cfg.rtol * |y0 i k|)⁻¹

/-- The `d0` of `_select_initial_step`, line 251. -/
noncomputable def sis_d0 {ι δ : Type} (cfg : PIDParams δ) (y0 : ι → δ → ℝ) : ι → ℝ :=
  fun i => cfg.normR fun k => y0 i k * sis_inv_scale cfg y0 i k

/-- The `d1` of `_select_initial_step`, line 252. -/
noncomputable def sis_d1 {ι δ : Type} (cfg : PIDParams δ) (y0 f0 : ι → δ → ℝ) :
    ι → ℝ :=
  fun i => cfg.normR fun k => f0 i k * sis_inv_scale cfg y0 i k

/-- The `dt0` of `_select_initial_step`, lines 254-258, after the clamp to
`dt_max`: `min (where (d0 < 1e-5 or d1 < 1e-5) 1e-6 (0.01 * d0 / d1)) dt_max`. -/
noncomputable def sis_dt0 {ι δ : Type} (cfg : PIDParams δ) (y0 f0 : ι → δ → ℝ)
    (dt_max : ι → ℝ) : ι → ℝ :=
  fun i =>
    min
      (if sis_d0 cfg y0 i < 1e-5 ∨ sis_d1 cfg y0 f0 i < 1e-5 then (1e-6 : ℝ)
       else 0.01 * sis_d0 cfg y0 i / sis_d1 cfg y0 f0 i)
      (dt_max i)

/-- The trial Euler state `y1` of `_select_initial_step`, line 260. -/
noncomputable def sis_y1 {ι δ : Type} (cfg : PIDParams δ) (y0 f0 : ι → δ → ℝ)
    (direction dt_max : ι → ℝ) : ι → δ → ℝ :=
  fun i k => y0 i k + direction i * sis_dt0 cfg y0 f0 dt_max i * f0 i k

/-- The `f1` of `_select_initial_step`, lines 261-266: the vector field at the
trial Euler state. -/
noncomputable def sis_f1 {ι δ : Type} (cfg : PIDParams δ)
    (vf : (ι → ℝ) → (ι → δ → ℝ) → ι → δ → ℝ) (t0 : ι → ℝ) (y0 f0 : ι → δ → ℝ)
    (direction dt_max : ι → ℝ) : ι → δ → ℝ :=
  vf (fun i => t0 i + direction i * sis_dt0 cfg y0 f0 dt_max i)
    (sis_y1 cfg y0 f0 direction dt_max)

/-- The `d2` of `_select_initial_step`, line 268: a division by `dt0` with no
zero guard. -/
noncomputable def sis_d2 {ι δ : Type} (cfg : PIDParams δ)
    (vf : (ι → ℝ) → (ι → δ → ℝ) → ι → δ → ℝ) (t0 : ι → ℝ) (y0 f0 : ι → δ → ℝ)
    (direction dt_max : ι → ℝ) : ι → ℝ :=
  fun i =>
    cfg.normR (fun k =>
        (sis_f1 cfg vf t0 y0 f0 direction dt_max i k - f0 i k) *
          sis_inv_scale cfg y0 i k) /
      sis_dt0 cfg y0 f0 dt_max i

/-- The `dt1` of `_select_initial_step`, lines 270-275. -/
noncomputable def sis_dt1 {ι δ : Type} (cfg : PIDParams δ)
    (vf : (ι → ℝ) → (ι → δ → ℝ) → ι → δ → ℝ) (t0 : ι → ℝ) (y0 f0 : ι → δ → ℝ)
    (direction dt_max : ι → ℝ) (convergence_order : ℕ) : ι → ℝ :=
  fun i =>
    if max (sis_d1 cfg y0 f0 i) (sis_d2 cfg vf t0 y0 f0 direction dt_max i) ≤ 1e-15 then
      max (1e-6 : ℝ) (sis_dt0 cfg y0 f0 dt_max i * 1e-3)
    else
      (0.01 / max (sis_d1 cfg y0 f0 i) (sis_d2 cfg vf t0 y0 f0 direction dt_max i)) ^
        ((1 : ℝ) / convergence_order)

/-- `PIDController._select_initial_step`: the Hairer–Nørsett–Wanner empirical
initial step.  `vf` is the resolved integration term (the source asserts one
is available, falling back to the configured default).  The intermediate
tensors `d0, d1, dt0, y1, f1, d2, dt1` are factored into the `sis_`
definitions above; the result is `direction * min (100 * dt0) dt1` together
with `f0` for reuse by the caller. -/
noncomputable def select_initial_step {ι δ : Type} (cfg : PIDParams δ)
    (vf : (ι → ℝ) → (ι → δ → ℝ) → ι → δ → ℝ) (t0 : ι → ℝ) (y0 : ι → δ → ℝ)
    (direction dt_max : ι → ℝ) (convergence_order : ℕ) : (ι → ℝ) × (ι → δ → ℝ) :=
  let f0 := vf t0 y0
  (fun i =>
      direction i *
        min (100 * sis_dt0 cfg y0 f0 dt_max i)
          (sis_dt1 cfg vf t0 y0 f0 direction dt_max convergence_order i),
    f0)

/-- A concrete configuration on a one-component state space, used by the
closed-instance theorems below. -/
noncomputable def cfgW : PIDParams Unit :=
  { atol := 1
    rtol := 0
    pcoeff := 0
    icoeff := 0
    dcoeff := 0
    norm := rms_norm
    normR := rms_normR
    dt_min := none
    dt_max := none
    safety := 0.9
    factor_min := 0.2
    factor_max := 10 }

/-- A concrete controller state for a batch of one element. -/
noncomputable def stW : PIDState Unit :=
  PIDState.default 1 none none 1

/-- A concrete controller state differing from `stW` in its method order. -/
noncomputable def stP : PIDState Unit :=
  PIDState.default 2 none none 1

/-- The all-zero time tensor on a batch of one element. -/
def zeroT : Unit → ℝ := fun _ => 0

/-- The all-one time tensor on a batch of one element. -/
def oneT : Unit → ℝ := fun _ => 1

/-- The all-zero data tensor on a batch of one element. -/
noncomputable def y0W : Unit → Unit → EReal := fun _ _ => 0

/-- The all-zero real data tensor on a batch of one element. -/
def zeroD : Unit → Unit → ℝ := fun _ _ => 0

/-- The identically-zero vector field on a batch of one element. -/
def vf7 : (Unit → ℝ) → (Unit → Unit → ℝ) → Unit → Unit → ℝ := fun _ _ _ _ => 0

/-- A small positive `dt_max` tensor used against the initial-step heuristic. -/
def dtm7 : Unit → ℝ := fun _ => 1e-9

/-- A concrete controller state on a batch of two elements, with a zero
`almost_zero` floor. -/
noncomputable def st5 : PIDState Bool :=
  PIDState.default 1 none none 0

/-- The all-zero data tensor on a batch of two elements. -/
noncomputable def y05 : Bool → Unit → EReal := fun _ _ => 0

/-- An error estimate carrying `+∞` in batch element `true` and `0` in batch
element `false`. -/
noncomputable def ee5 : Bool → Unit → EReal := fun b _ => if b then ⊤ else 0

/-- The invariant of the spec's data model: both history ratios are bounded
below by the `almost_zero` floor. -/
def ratios_floored {ι : Type} (s : PIDState ι) : Prop :=
  ∀ i, s.almost_zero ≤ s.prev_error_ratio i ∧ s.almost_zero ≤ s.prev_prev_error_ratio i

theorem update_error_ratios_self {ι : Type} (s : PIDState ι) :
    s.update_error_ratios s.prev_error_ratio s.prev_prev_error_ratio = s :=
  rfl

theorem rms_norm_const (x : ℝ≥0∞) : rms_norm (fun _ : Unit => x) = x := by
  have h1 : rms_norm (fun _ : Unit => x) = (x ^ (2 : ℕ)) ^ ((1 : ℝ) / 2) := by
    simp [rms_norm]
  rw [h1, ← ENNReal.rpow_natCast x 2, ← ENNReal.rpow_mul]
  norm_num

/-- Claim C1: for every controller state with positive history ratios and
every positive error ratio, `dt_factor` returns
`clamp (safety * error_ratio ^ (-(kI+kP+kD)) * prev_error_ratio ^ (kP+2kD) *
prev_prev_error_ratio ^ (-kD)) factor_min factor_max` with
`kI = icoeff/order`, `kP = pcoeff/order`, `kD = dcoeff/order`; in particular
the returned factor always lies in `[factor_min, factor_max]`. -/
theorem C1_dt_factor_clamped {ι δ : Type} (cfg : PIDParams δ) (state : PIDState ι)
    (er : ι → ℝ≥0∞) (hb : cfg.factor_min ≤ cfg.factor_max)
    (h1 : ∀ i, 0 < er i) (h2 : ∀ i, 0 < state.prev_error_ratio i)
    (h3 : ∀ i, 0 < state.prev_prev_error_ratio i) :
    (∀ i,
      dt_factor cfg state er i =
        min
          (max
            (ENNReal.ofReal cfg.safety *
              er i ^
                (-(cfg.icoeff / (state.method_order : ℝ) +
                    cfg.pcoeff / (state.method_order : ℝ) +
                    cfg.dcoeff / (state.method_order : ℝ))) *
              state.prev_error_ratio i ^
                (cfg.pcoeff / (state.method_order : ℝ) +
                  2 * (cfg.dcoeff / (state.method_order : ℝ))) *
              state.prev_prev_error_ratio i ^
                (-(cfg.dcoeff / (state.method_order : ℝ))))
            (ENNReal.ofReal cfg.factor_min))
          (ENNReal.ofReal cfg.factor_max)) ∧
    ∀ i, ENNReal.ofReal cfg.factor_min ≤ dt_factor cfg state er i ∧
      dt_factor cfg state er i ≤ ENNReal.ofReal cfg.factor_max := by
  constructor
  · intro i; rfl
  · intro i
    exact ⟨le_min (le_max_right _ _) (ENNReal.ofReal_le_ofReal hb), min_le_right _ _⟩

/-- Claim C1 witness: the clamp bounds at a concrete configuration, state and
error ratio. -/
theorem C1_dt_factor_clamped_witness :
    cfgW.factor_min ≤ cfgW.factor_max ∧
      ∀ i : Unit, ENNReal.ofReal cfgW.factor_min ≤ dt_factor cfgW stW (fun _ => 1) i ∧
        dt_factor cfgW stW (fun _ => 1) i ≤ ENNReal.ofReal cfgW.factor_max :=
  ⟨by norm_num [cfgW],
    (C1_dt_factor_clamped cfgW stW (fun _ => 1) (by norm_num [cfgW])
      (fun _ => zero_lt_one) (fun _ => by simp [stW, PIDState.default])
      (fun _ => by simp [stW, PIDState.default])).2⟩

/-- Claim C4: with no error estimate, `adapt_step_size` accepts every batch
element, returns `dt` unchanged and no status, and the new history is the
neutral ratio `1.0` with `prev_prev` shifted from the old `prev`. -/
theorem C4_no_error_estimate {ι δ : Type} (cfg : PIDParams δ) (t0 dt : ι → ℝ)
    (y0 y1 : ι → δ → EReal) (state : PIDState ι) :
    (∀ i, (adapt_step_size cfg t0 dt y0 ⟨y1, none⟩ state).accept i = true) ∧
    (adapt_step_size cfg t0 dt y0 ⟨y1, none⟩ state).dt_next = dt ∧
    (adapt_step_size cfg t0 dt y0 ⟨y1, none⟩ state).status = none ∧
    (∀ i, (adapt_step_size cfg t0 dt y0 ⟨y1, none⟩ state).state.prev_error_ratio i = 1) ∧
    (adapt_step_size cfg t0 dt y0 ⟨y1, none⟩ state).state.prev_prev_error_ratio =
      state.prev_error_ratio :=
  ⟨fun _ => rfl, rfl, rfl, fun _ => rfl, rfl⟩

/-- Claim C3: with an error estimate present, acceptance is decided per batch
element by the strict comparison `error_ratio < 1`: elements with ratio `≥ 1`
(including exactly `1`) are rejected and elements with ratio `< 1` are
accepted, where the error ratio is
`max (norm (|error_estimate| / (atol + rtol * max |y0| |y1|))) almost_zero`. -/
theorem C3_strict_acceptance {ι δ : Type} (cfg : PIDParams δ) (t0 dt : ι → ℝ)
    (y0 y1 ee : ι → δ → EReal) (state : PIDState ι) :
    ∀ i,
      ((adapt_step_size cfg t0 dt y0 ⟨y1, some ee⟩ state).accept i = true ↔
        error_ratio cfg state y0 y1 ee i < 1) ∧
      ((adapt_step_size cfg t0 dt y0 ⟨y1, some ee⟩ state).accept i = false ↔
        1 ≤ error_ratio cfg state y0 y1 ee i) ∧
      error_ratio cfg state y0 y1 ee i =
        max (cfg.norm fun k =>
            (ee i k).abs /
              (ENNReal.ofReal cfg.atol +
                ENNReal.ofReal cfg.rtol * max (y0 i k).abs (y1 i k).abs))
          state.almost_zero := by
  intro i
  refine ⟨?_, ?_, rfl⟩
  · show decide (error_ratio cfg state y0 y1 ee i < 1) = true ↔ _
    exact ⟨of_decide_eq_true, decide_eq_true⟩
  · show decide (error_ratio cfg state y0 y1 ee i < 1) = false ↔ _
    rw [decide_eq_false_iff_not, not_lt]

/-- Claim C2: with an error estimate present, the state returned by
`adapt_step_size` shifts the history exactly where the step is accepted and
is left untouched where it is rejected; when every element is rejected the
whole state is unchanged. -/
theorem C2_history_update {ι δ : Type} (cfg : PIDParams δ) (t0 dt : ι → ℝ)
    (y0 y1 ee : ι → δ → EReal) (state : PIDState ι) :
    (∀ i, (adapt_step_size cfg t0 dt y0 ⟨y1, some ee⟩ state).accept i = true →
      (adapt_step_size cfg t0 dt y0 ⟨y1, some ee⟩ state).state.prev_error_ratio i =
          error_ratio cfg state y0 y1 ee i ∧
        (adapt_step_size cfg t0 dt y0 ⟨y1, some ee⟩ state).state.prev_prev_error_ratio i =
          state.prev_error_ratio i) ∧
    (∀ i, (adapt_step_size cfg t0 dt y0 ⟨y1, some ee⟩ state).accept i = false →
      (adapt_step_size cfg t0 dt y0 ⟨y1, some ee⟩ state).state.prev_error_ratio i =
          state.prev_error_ratio i ∧
        (adapt_step_size cfg t0 dt y0 ⟨y1, some ee⟩ state).state.prev_prev_error_ratio i =
          state.prev_prev_error_ratio i) ∧
    ((∀ i, (adapt_step_size cfg t0 dt y0 ⟨y1, some ee⟩ state).accept i = false) →
      (adapt_step_size cfg t0 dt y0 ⟨y1, some ee⟩ state).state = state) := by
  refine ⟨fun i h => ?_, fun i h => ?_, fun h => ?_⟩
  · have h' : decide (error_ratio cfg state y0 y1 ee i < 1) = true := h
    constructor
    · show (if decide (error_ratio cfg state y0 y1 ee i < 1) = true then
          error_ratio cfg state y0 y1 ee i else state.prev_error_ratio i) = _
      simp [h']
    · show (if decide (error_ratio cfg state y0 y1 ee i < 1) = true then
          state.prev_error_ratio i else state.prev_prev_error_ratio i) = _
      simp [h']
  · have h' : decide (error_ratio cfg state y0 y1 ee i < 1) = false := h
    constructor
    · show (if decide (error_ratio cfg state y0 y1 ee i < 1) = true then
          error_ratio cfg state y0 y1 ee i else state.prev_error_ratio i) = _
      simp [h']
    · show (if decide (error_ratio cfg state y0 y1 ee i < 1) = true then
          state.prev_error_ratio i else state.prev_prev_error_ratio i) = _
      simp [h']
  · have hp : (fun i => if decide (error_ratio cfg state y0 y1 ee i < 1) = true then
        error_ratio cfg state y0 y1 ee i else state.prev_error_ratio i) =
        state.prev_error_ratio := by
      funext i
      have h' : decide (error_ratio cfg state y0 y1 ee i < 1) = false := h i
      simp [h']
    have hpp : (fun i => if decide (error_ratio cfg state y0 y1 ee i < 1) = true then
        state.prev_error_ratio i else state.prev_prev_error_ratio i) =
        state.prev_prev_error_ratio := by
      funext i
      have h' : decide (error_ratio cfg state y0 y1 ee i < 1) = false := h i
      simp [h']
    show state.update_error_ratios
        (fun i => if decide (error_ratio cfg state y0 y1 ee i < 1) = true then
          error_ratio cfg state y0 y1 ee i else state.prev_error_ratio i)
        (fun i => if decide (error_ratio cfg state y0 y1 ee i < 1) = true then
          state.prev_error_ratio i else state.prev_prev_error_ratio i) = state
    rw [hp, hpp]
    exact update_error_ratios_self state

/-- Claim C2 witness: a concrete all-rejected call (the error ratio evaluates
to exactly `1`, which is rejected) leaves the state unchanged. -/
theorem C2_history_update_witness :
    (∀ i : Unit, (adapt_step_size cfgW zeroT oneT y0W ⟨y0W, some y0W⟩ stW).accept i = false) ∧
      (adapt_step_size cfgW zeroT oneT y0W ⟨y0W, some y0W⟩ stW).state = stW := by
  have hr : ∀ i : Unit, error_ratio cfgW stW y0W y0W y0W i = 1 := by
    intro i
    have hfun : (fun k => (y0W i k).abs / error_bounds cfgW y0W y0W i k) =
        fun _ : Unit => (0 : ℝ≥0∞) := by
      funext k
      simp [y0W, EReal.abs_zero]
    show max (rms_norm fun k => (y0W i k).abs / error_bounds cfgW y0W y0W i k)
        (1 : ℝ≥0∞) = 1
    rw [hfun, rms_norm_const]
    simp
  have hacc : ∀ i : Unit,
      (adapt_step_size cfgW zeroT oneT y0W ⟨y0W, some y0W⟩ stW).accept i = false := by
    intro i
    show decide (error_ratio cfgW stW y0W y0W y0W i < 1) = false
    rw [hr i]
    simp
  exact ⟨hacc, (C2_history_update cfgW zeroT oneT y0W y0W y0W stW).2.2 hacc⟩

/-- Claim C6 counterexample: with an all-false mask, `merge_states` does not
return `previous` unchanged when the two states differ in a non-history field
(here the method order: the result keeps `current`'s order). -/
theorem C6_counterexample :
    merge_states (fun _ : Unit => false) stW stP ≠ stP := by
  intro h
  have h2 := congrArg PIDState.method_order h
  simp [merge_states, PIDState.update_error_ratios, stW, stP, PIDState.default] at h2

/-- Claim C6 as amended: `merge_states` selects the history elementwise from
`current` where the mask holds and from `previous` where it does not (so no
element's result depends on another element); an all-true mask returns
`current` unchanged; an all-false mask returns a state carrying `previous`'s
history, which equals `previous` whenever the two states agree on all
non-history fields. -/
theorem C6_merge_select {ι : Type} (running : ι → Bool) (cur prev : PIDState ι) :
    (∀ i, (merge_states running cur prev).prev_error_ratio i =
        if running i then cur.prev_error_ratio i else prev.prev_error_ratio i) ∧
    (∀ i, (merge_states running cur prev).prev_prev_error_ratio i =
        if running i then cur.prev_prev_error_ratio i else prev.prev_prev_error_ratio i) ∧
    ((∀ i, running i = true) → merge_states running cur prev = cur) ∧
    ((∀ i, running i = false) →
      (∀ i, (merge_states running cur prev).prev_error_ratio i =
          prev.prev_error_ratio i) ∧
      (∀ i, (merge_states running cur prev).prev_prev_error_ratio i =
          prev.prev_prev_error_ratio i) ∧
      (cur.method_order = prev.method_order → cur.dt_min = prev.dt_min →
        cur.dt_max = prev.dt_max → cur.almost_zero = prev.almost_zero →
        merge_states running cur prev = prev)) := by
  refine ⟨fun i => rfl, fun i => rfl, fun h => ?_, fun h => ?_⟩
  · have hp : (fun i =>
        if running i then cur.prev_error_ratio i else prev.prev_error_ratio i) =
        cur.prev_error_ratio := by
      funext i
      rw [h i]
      simp
    have hpp : (fun i =>
        if running i then cur.prev_prev_error_ratio i else prev.prev_prev_error_ratio i) =
        cur.prev_prev_error_ratio := by
      funext i
      rw [h i]
      simp
    show cur.update_error_ratios
        (fun i => if running i then cur.prev_error_ratio i else prev.prev_error_ratio i)
        (fun i =>
          if running i then cur.prev_prev_error_ratio i
          else prev.prev_prev_error_ratio i) = cur
    rw [hp, hpp]
    exact update_error_ratios_self cur
  · have hp : (fun i =>
        if running i then cur.prev_error_ratio i else prev.prev_error_ratio i) =
        prev.prev_error_ratio := by
      funext i
      rw [h i]
      simp
    have hpp : (fun i =>
        if running i then cur.prev_prev_error_ratio i else prev.prev_prev_error_ratio i) =
        prev.prev_prev_error_ratio := by
      funext i
      rw [h i]
      simp
    refine ⟨fun i => by rw [show (merge_states running cur prev).prev_error_ratio =
        (fun i => if running i then cur.prev_error_ratio i else prev.prev_error_ratio i)
        from rfl, hp], fun i => by rw [show (merge_states running cur prev).prev_prev_error_ratio =
        (fun i => if running i then cur.prev_prev_error_ratio i
          else prev.prev_prev_error_ratio i) from rfl, hpp], fun h1 h2 h3 h4 => ?_⟩
    exact PIDState.ext h1 hp hpp h2 h3 h4

/-- Claim C6 witness: an all-true mask returns `current` unchanged and, for
states agreeing on all non-history fields, an all-false mask returns
`previous` unchanged. -/
theorem C6_merge_select_witness :
    merge_states (fun _ : Unit => true) stW stP = stW ∧
      merge_states (fun _ : Unit => false) stW stW = stW :=
  ⟨(C6_merge_select (fun _ : Unit => true) stW stP).2.2.1 fun _ => rfl,
    ((C6_merge_select (fun _ : Unit => false) stW stW).2.2.2 fun _ => rfl).2.2
      rfl rfl rfl rfl⟩

/-- Claim C9: `merge_states` selects between the two states only on the two
history fields; every other field of the result (`method_order`, `dt_min`,
`dt_max`, `almost_zero`) is taken from `current` for every mask, including
the all-false one. -/
theorem C9_merge_frame {ι : Type} (running : ι → Bool) (cur prev : PIDState ι) :
    (merge_states running cur prev).method_order = cur.method_order ∧
    (merge_states running cur prev).dt_min = cur.dt_min ∧
    (merge_states running cur prev).dt_max = cur.dt_max ∧
    (merge_states running cur prev).almost_zero = cur.almost_zero :=
  ⟨rfl, rfl, rfl, rfl⟩

/-- Claim C5: with an error estimate present, the returned status is
per-batch-element `SUCCESS` exactly where the error ratio is finite and
`INFINITE_NORM` exactly where it is not; in particular, injecting `+∞` into
the error estimate of one batch element of two yields `INFINITE_NORM` for
exactly that element and `SUCCESS` for the other (and `adapt_step_size` is a
total function, so no exception is raised). -/
theorem C5_status_infinite_norm :
    (∀ (ι δ : Type) (cfg : PIDParams δ) (t0 dt : ι → ℝ) (y0 y1 ee : ι → δ → EReal)
        (state : PIDState ι),
      ∃ st, (adapt_step_size cfg t0 dt y0 ⟨y1, some ee⟩ state).status = some st ∧
        ∀ i, (st i = StatusCode.SUCCESS ↔ error_ratio cfg state y0 y1 ee i ≠ ⊤) ∧
          (st i = StatusCode.INFINITE_NORM ↔ error_ratio cfg state y0 y1 ee i = ⊤)) ∧
    (∃ st,
      (adapt_step_size cfgW (fun _ => 0) (fun _ => 1) y05 ⟨y05, some ee5⟩ st5).status =
        some st ∧
      st true = StatusCode.INFINITE_NORM ∧ st false = StatusCode.SUCCESS) := by
  constructor
  · intro ι δ cfg t0 dt y0 y1 ee state
    refine ⟨_, rfl, fun i => ?_⟩
    rcases eq_or_ne (error_ratio cfg state y0 y1 ee i) ⊤ with h | h
    · simp [h]
    · have h' : error_ratio cfg state y0 y1 ee i < ⊤ := lt_top_iff_ne_top.mpr h
      simp [h', h]
  · refine ⟨_, rfl, ?_, ?_⟩
    · have h : error_ratio cfgW st5 y05 y05 ee5 true = ⊤ := by
        have hfun : (fun k => (ee5 true k).abs / error_bounds cfgW y05 y05 true k) =
            fun _ : Unit => (⊤ : ℝ≥0∞) := by
          funext k
          simp [ee5, y05, error_bounds, cfgW, EReal.abs_zero]
        show max (rms_norm fun k => (ee5 true k).abs / error_bounds cfgW y05 y05 true k)
            st5.almost_zero = ⊤
        rw [hfun, rms_norm_const]
        simp
      show (if error_ratio cfgW st5 y05 y05 ee5 true < ⊤ then StatusCode.SUCCESS
          else StatusCode.INFINITE_NORM) = StatusCode.INFINITE_NORM
      rw [h]
      simp
    · have h : error_ratio cfgW st5 y05 y05 ee5 false = 0 := by
        have hfun : (fun k => (ee5 false k).abs / error_bounds cfgW y05 y05 false k) =
            fun _ : Unit => (0 : ℝ≥0∞) := by
          funext k
          simp [ee5, y05, EReal.abs_zero]
        show max (rms_norm fun k => (ee5 false k).abs / error_bounds cfgW y05 y05 false k)
            st5.almost_zero = 0
        rw [hfun, rms_norm_const]
        simp [st5, PIDState.default]
      show (if error_ratio cfgW st5 y05 y05 ee5 false < ⊤ then StatusCode.SUCCESS
          else StatusCode.INFINITE_NORM) = StatusCode.SUCCESS
      rw [h]
      simp

/-- Claim C8: the error ratio of `adapt_step_size` is bounded below by the
state's `almost_zero` floor; the floor invariant on both history ratios holds
for the initial state and is preserved by both branches of
`adapt_step_size` and by `merge_states`; with a positive floor the bases of
the three exponentiations in `dt_factor` are therefore nonzero. -/
theorem C8_error_ratio_floor (ι δ : Type) :
    (∀ (cfg : PIDParams δ) (state : PIDState ι) (y0 y1 ee : ι → δ → EReal) (i : ι),
        state.almost_zero ≤ error_ratio cfg state y0 y1 ee i) ∧
    (∀ (mo : ℕ) (dmin dmax : Option ℝ) (az : ℝ≥0∞), az ≤ 1 →
        ratios_floored (PIDState.default mo dmin dmax az : PIDState ι)) ∧
    (∀ (cfg : PIDParams δ) (t0 dt : ι → ℝ) (y0 : ι → δ → EReal)
        (sr : StepResult ι δ) (state : PIDState ι), state.almost_zero ≤ 1 →
        ratios_floored state →
        ratios_floored (adapt_step_size cfg t0 dt y0 sr state).state) ∧
    (∀ (running : ι → Bool) (cur prev : PIDState ι), ratios_floored cur →
        ratios_floored prev → prev.almost_zero = cur.almost_zero →
        ratios_floored (merge_states running cur prev)) ∧
    (∀ (state : PIDState ι) (er : ι → ℝ≥0∞), 0 < state.almost_zero →
        ratios_floored state → (∀ i, state.almost_zero ≤ er i) →
        ∀ i, er i ≠ 0 ∧ state.prev_error_ratio i ≠ 0 ∧
          state.prev_prev_error_ratio i ≠ 0) := by
  refine ⟨fun cfg state y0 y1 ee i => le_max_right _ _, ?_, ?_, ?_, ?_⟩
  · intro mo dmin dmax az haz i
    exact ⟨haz, haz⟩
  · intro cfg t0 dt y0 sr state haz hst i
    rcases sr with ⟨y1, ee⟩
    cases ee with
    | none => exact ⟨haz, (hst i).1⟩
    | some ee =>
      constructor
      · show state.almost_zero ≤
          if decide (error_ratio cfg state y0 y1 ee i < 1) = true then
            error_ratio cfg state y0 y1 ee i
          else state.prev_error_ratio i
        by_cases hb : decide (error_ratio cfg state y0 y1 ee i < 1) = true
        · rw [if_pos hb]
          exact le_max_right _ _
        · rw [if_neg hb]
          exact (hst i).1
      · show state.almost_zero ≤
          if decide (error_ratio cfg state y0 y1 ee i < 1) = true then
            state.prev_error_ratio i
          else state.prev_prev_error_ratio i
        by_cases hb : decide (error_ratio cfg state y0 y1 ee i < 1) = true
        · rw [if_pos hb]
          exact (hst i).1
        · rw [if_neg hb]
          exact (hst i).2
  · intro running cur prev hc hp haz i
    constructor
    · show cur.almost_zero ≤
        if running i then cur.prev_error_ratio i else prev.prev_error_ratio i
      cases hri : running i
      · simpa [hri, ← haz] using (hp i).1
      · simpa [hri] using (hc i).1
    · show cur.almost_zero ≤
        if running i then cur.prev_prev_error_ratio i else prev.prev_prev_error_ratio i
      cases hri : running i
      · simpa [hri, ← haz] using (hp i).2
      · simpa [hri] using (hc i).2
  · intro state er h0 hst har i
    exact ⟨(h0.trans_le (har i)).ne', (h0.trans_le (hst i).1).ne',
      (h0.trans_le (hst i).2).ne'⟩

/-- Claim C8 witness: the floor invariant at a concrete state, propagated
through a concrete `adapt_step_size` call and a concrete merge, with nonzero
ratios. -/
theorem C8_error_ratio_floor_witness :
    (stW.almost_zero ≤ 1 ∧ ratios_floored stW) ∧
      ratios_floored (adapt_step_size cfgW zeroT oneT y0W ⟨y0W, some y0W⟩ stW).state ∧
      ratios_floored (merge_states (fun _ : Unit => true) stW stW) ∧
      (∀ i : Unit, (fun _ : Unit => (1 : ℝ≥0∞)) i ≠ 0 ∧ stW.prev_error_ratio i ≠ 0 ∧
        stW.prev_prev_error_ratio i ≠ 0) := by
  have H := C8_error_ratio_floor Unit Unit
  have haz : stW.almost_zero ≤ 1 := le_refl _
  have hrf : ratios_floored stW := H.2.1 1 none none 1 le_rfl
  exact ⟨⟨haz, hrf⟩, H.2.2.1 cfgW zeroT oneT y0W ⟨y0W, some y0W⟩ stW haz hrf,
    H.2.2.2.1 (fun _ => true) stW stW hrf hrf rfl,
    H.2.2.2.2 stW (fun _ => 1) zero_lt_one hrf fun _ => le_rfl⟩

theorem sis_dt0_raw_pos {ι δ : Type} (cfg : PIDParams δ) (y0 f0 : ι → δ → ℝ) (i : ι) :
    0 < (if sis_d0 cfg y0 i < 1e-5 ∨ sis_d1 cfg y0 f0 i < 1e-5 then (1e-6 : ℝ)
      else 0.01 * sis_d0 cfg y0 i / sis_d1 cfg y0 f0 i) := by
  split_ifs with h
  · norm_num
  · push_neg at h
    exact div_pos (mul_pos (by norm_num) (lt_of_lt_of_le (by norm_num) h.1))
      (lt_of_lt_of_le (by norm_num) h.2)

theorem sis_dt1_pos {ι δ : Type} (cfg : PIDParams δ)
    (vf : (ι → ℝ) → (ι → δ → ℝ) → ι → δ → ℝ) (t0 : ι → ℝ) (y0 f0 : ι → δ → ℝ)
    (direction dt_max : ι → ℝ) (n : ℕ) (i : ι) :
    0 < sis_dt1 cfg vf t0 y0 f0 direction dt_max n i := by
  unfold sis_dt1
  split_ifs with h
  · exact lt_max_of_lt_left (by norm_num)
  · push_neg at h
    exact Real.rpow_pos_of_pos (div_pos (by norm_num) (lt_trans (by norm_num) h)) _

theorem rms_normR_zero : rms_normR (fun _ : Unit => (0 : ℝ)) = 0 := by
  norm_num [rms_normR]

/-- Claim C7 counterexample: at a concrete input satisfying the claim's
preconditions (`direction = 1`, `dt_max = 1e-9 > 0`, `convergence_order = 1`),
the heuristic returns `1e-7`, which exceeds `dt_max` in magnitude: only `dt0`
is clamped to `dt_max`, while the returned value is
`direction * min (100 * dt0) dt1`. -/
theorem C7_counterexample :
    oneT () = 1 ∧ 0 < dtm7 () ∧ (1 : ℕ) ≤ 1 ∧
      dtm7 () < |(select_initial_step cfgW vf7 zeroT zeroD oneT dtm7 1).1 ()| := by
  have hf0 : vf7 zeroT zeroD = zeroD := rfl
  have hd0 : ∀ i, sis_d0 cfgW zeroD i = 0 := by
    intro i
    show rms_normR (fun k => zeroD i k * sis_inv_scale cfgW zeroD i k) = 0
    have hz : (fun k => zeroD i k * sis_inv_scale cfgW zeroD i k) =
        fun _ : Unit => (0 : ℝ) := by
      funext k
      simp [zeroD]
    rw [hz, rms_normR_zero]
  have hd1 : ∀ i, sis_d1 cfgW zeroD zeroD i = 0 := by
    intro i
    show rms_normR (fun k => zeroD i k * sis_inv_scale cfgW zeroD i k) = 0
    have hz : (fun k => zeroD i k * sis_inv_scale cfgW zeroD i k) =
        fun _ : Unit => (0 : ℝ) := by
      funext k
      simp [zeroD]
    rw [hz, rms_normR_zero]
  have hdt0 : sis_dt0 cfgW zeroD zeroD dtm7 () = 1e-9 := by
    show min (if sis_d0 cfgW zeroD () < 1e-5 ∨ sis_d1 cfgW zeroD zeroD () < 1e-5 then
        (1e-6 : ℝ) else 0.01 * sis_d0 cfgW zeroD () / sis_d1 cfgW zeroD zeroD ())
        (dtm7 ()) = 1e-9
    rw [hd0 (), hd1 (), if_pos (Or.inl (by norm_num)),
      show dtm7 () = (1e-9 : ℝ) from rfl]
    exact min_eq_right (by norm_num)
  have hd2 : sis_d2 cfgW vf7 zeroT zeroD zeroD oneT dtm7 () = 0 := by
    show rms_normR (fun k =>
        (sis_f1 cfgW vf7 zeroT zeroD zeroD oneT dtm7 () k - zeroD () k) *
          sis_inv_scale cfgW zeroD () k) / sis_dt0 cfgW zeroD zeroD dtm7 () = 0
    have hz : (fun k =>
        (sis_f1 cfgW vf7 zeroT zeroD zeroD oneT dtm7 () k - zeroD () k) *
          sis_inv_scale cfgW zeroD () k) = fun _ : Unit => (0 : ℝ) := by
      funext k
      show ((0 : ℝ) - 0) * sis_inv_scale cfgW zeroD () k = 0
      ring
    rw [hz, rms_normR_zero, zero_div]
  have hdt1 : sis_dt1 cfgW vf7 zeroT zeroD zeroD oneT dtm7 1 () = 1e-6 := by
    show (if max (sis_d1 cfgW zeroD zeroD ())
          (sis_d2 cfgW vf7 zeroT zeroD zeroD oneT dtm7 ()) ≤ 1e-15 then
        max (1e-6 : ℝ) (sis_dt0 cfgW zeroD zeroD dtm7 () * 1e-3)
      else
        (0.01 / max (sis_d1 cfgW zeroD zeroD ())
            (sis_d2 cfgW vf7 zeroT zeroD zeroD oneT dtm7 ())) ^ ((1 : ℝ) / (1 : ℕ))) =
      1e-6
    rw [hd1 (), hd2, if_pos (by norm_num : max (0 : ℝ) 0 ≤ 1e-15), hdt0]
    exact max_eq_left (by norm_num)
  refine ⟨rfl, by norm_num [dtm7], le_refl 1, ?_⟩
  show dtm7 () < |oneT () *
    min (100 * sis_dt0 cfgW zeroD (vf7 zeroT zeroD) dtm7 ())
      (sis_dt1 cfgW vf7 zeroT zeroD (vf7 zeroT zeroD) oneT dtm7 1 ())|
  rw [hf0, hdt0, hdt1, show oneT () = (1 : ℝ) from rfl,
    show dtm7 () = (1e-9 : ℝ) from rfl,
    min_eq_left (by norm_num : (100 : ℝ) * 1e-9 ≤ 1e-6)]
  rw [one_mul, abs_of_pos (by norm_num : (0 : ℝ) < 100 * 1e-9)]
  norm_num

/-- Claim C7 as amended: under the claim's preconditions the initial step has
the sign of `direction` and magnitude at most `100 * dt_max` (the factor 100
is forced by the counterexample: `dt0 ≤ dt_max` is clamped but the result is
`direction * min (100 * dt0) dt1`). -/
theorem C7_initial_step_sign_bound {ι δ : Type} (cfg : PIDParams δ)
    (vf : (ι → ℝ) → (ι → δ → ℝ) → ι → δ → ℝ) (t0 : ι → ℝ) (y0 : ι → δ → ℝ)
    (direction dt_max : ι → ℝ) (n : ℕ)
    (hdir : ∀ i, direction i = 1 ∨ direction i = -1)
    (hmax : ∀ i, 0 < dt_max i) (hn : 1 ≤ n) :
    ∀ i, ∃ m : ℝ, 0 < m ∧ m ≤ 100 * dt_max i ∧
      (select_initial_step cfg vf t0 y0 direction dt_max n).1 i = direction i * m := by
  intro i
  refine ⟨min (100 * sis_dt0 cfg y0 (vf t0 y0) dt_max i)
      (sis_dt1 cfg vf t0 y0 (vf t0 y0) direction dt_max n i), ?_, ?_, rfl⟩
  · exact lt_min (mul_pos (by norm_num)
        (lt_min (sis_dt0_raw_pos cfg y0 (vf t0 y0) i) (hmax i)))
      (sis_dt1_pos cfg vf t0 y0 (vf t0 y0) direction dt_max n i)
  · refine le_trans (min_le_left _ _) ?_
    have hle : sis_dt0 cfg y0 (vf t0 y0) dt_max i ≤ dt_max i := min_le_right _ _
    linarith

/-- Claim C7 witness: the amended bound and sign at the counterexample's
concrete input. -/
theorem C7_initial_step_sign_bound_witness :
    ∃ m : ℝ, 0 < m ∧ m ≤ 100 * dtm7 () ∧
      (select_initial_step cfgW vf7 zeroT zeroD oneT dtm7 1).1 () = oneT () * m :=
  C7_initial_step_sign_bound cfgW vf7 zeroT zeroD oneT dtm7 1
    (fun _ => Or.inl rfl) (fun _ => by norm_num [dtm7]) le_rfl ()

/-- Claim C10: `d2` is the norm of the scaled derivative difference divided
by `dt0` with no zero guard; `dt0` is strictly positive for every batch
element with `dt_max > 0`, while `dt_max = 0` makes `dt0` exactly zero, so
the division is well-defined precisely under the `dt_max > 0` precondition. -/
theorem C10_d2_division_guard {ι δ : Type} (cfg : PIDParams δ)
    (vf : (ι → ℝ) → (ι → δ → ℝ) → ι → δ → ℝ) (t0 : ι → ℝ) (y0 f0 : ι → δ → ℝ)
    (direction dt_max : ι → ℝ) :
    ∀ i,
      sis_d2 cfg vf t0 y0 f0 direction dt_max i =
        cfg.normR (fun k =>
          (sis_f1 cfg vf t0 y0 f0 direction dt_max i k - f0 i k) *
            sis_inv_scale cfg y0 i k) / sis_dt0 cfg y0 f0 dt_max i ∧
      (0 < dt_max i → 0 < sis_dt0 cfg y0 f0 dt_max i) ∧
      (dt_max i = 0 → sis_dt0 cfg y0 f0 dt_max i = 0) := by
  intro i
  refine ⟨rfl, fun h => lt_min (sis_dt0_raw_pos cfg y0 f0 i) h, fun h => ?_⟩
  show min (if sis_d0 cfg y0 i < 1e-5 ∨ sis_d1 cfg y0 f0 i < 1e-5 then (1e-6 : ℝ)
      else 0.01 * sis_d0 cfg y0 i / sis_d1 cfg y0 f0 i) (dt_max i) = 0
  rw [h]
  exact min_eq_right (sis_dt0_raw_pos cfg y0 f0 i).le

/-- Claim C10 witness: `dt0` is positive at a concrete input with
`dt_max = 1` and zero at the same input with `dt_max = 0`. -/
theorem C10_d2_division_guard_witness :
    (0 : ℝ) < oneT () ∧ 0 < sis_dt0 cfgW zeroD zeroD oneT () ∧
      zeroT () = 0 ∧ sis_dt0 cfgW zeroD zeroD zeroT () = 0 :=
  ⟨by norm_num [oneT],
    ((C10_d2_division_guard cfgW vf7 zeroT zeroD zeroD oneT oneT) ()).2.1
      (by norm_num [oneT]),
    rfl,
    ((C10_d2_division_guard cfgW vf7 zeroT zeroD zeroD oneT zeroT) ()).2.2 rfl⟩

end PIDVerif
